import Mathlib

/-!
Verification of the forecast-vintage reconciliation core of the swemo-mcp /
riksbank-mcp repository: the realized-value merge (`merge_realized` in
`src/swemo_mcp/utils/realized_merge.py`), the resilient fetch client
(`riksbanken_request` in `src/swemo_mcp/services/monetary_policy_api.py`),
the series-fetch orchestrator (`_fetch_series` in
`src/riksbank_mcp/tools/monetary_policy_tools.py`) and the request model
(`ForecastRequest` in `src/riksbank_mcp/query.py`), shallowly embedded as
executable Lean definitions.

Observation values are floats in the source; the core only copies them
(never computes with them), so they are embedded as rationals. Python
`datetime.date` values are embedded as year/month/day triples with the
lexicographic order; `date.fromisoformat` is embedded for the dashed
`YYYY-MM-DD` form used throughout this API.
-/

/-- Embedding of a Python `datetime.date`: a valid Gregorian calendar day. -/
structure PyDate where
  year : Nat
  month : Nat
  day : Nat
deriving DecidableEq, Repr

/-- Python `date` comparison `a < b`: lexicographic on (year, month, day). -/
def pyDateLt (a b : PyDate) : Bool :=
  a.year < b.year ||
    (a.year = b.year && (a.month < b.month ||
      (a.month = b.month && a.day < b.day)))

/-- Gregorian leap-year test, as used by Python's `datetime` module. -/
def isLeapYear (y : Nat) : Bool :=
  y % 4 = 0 && (y % 100 ≠ 0 || y % 400 = 0)

/-- Number of days in a month of a given year (Python `calendar` rules). -/
def daysInMonth (y m : Nat) : Nat :=
  if m = 2 then (if isLeapYear y then 29 else 28)
  else if m = 4 || m = 6 || m = 9 || m = 11 then 30
  else 31

/-- Numeric value of a decimal digit character. -/
def digitVal (c : Char) : Nat := c.toNat - 48

/-- Embedding of `datetime.date.fromisoformat` restricted to the dashed
`YYYY-MM-DD` form (the only form this API emits): `none` models the
`ValueError` Python raises on a malformed date string. -/
def parseIsoDate (s : String) : Option PyDate :=
  match s.data with
  | [y1, y2, y3, y4, s1, m1, m2, s2, d1, d2] =>
    if y1.isDigit && y2.isDigit && y3.isDigit && y4.isDigit &&
       s1 = '-' && m1.isDigit && m2.isDigit && s2 = '-' &&
       d1.isDigit && d2.isDigit then
      let y := ((digitVal y1 * 10 + digitVal y2) * 10 + digitVal y3) * 10 + digitVal y4
      let m := digitVal m1 * 10 + digitVal m2
      let d := digitVal d1 * 10 + digitVal d2
      if 1 ≤ y && 1 ≤ m && m ≤ 12 && 1 ≤ d && d ≤ daysInMonth y m then
        some ⟨y, m, d⟩
      else none
    else none
  | _ => none

/-- Python string comparison `a < b` on char lists: lexicographic by code
point, a strict prefix is smaller. -/
def strLt : List Char → List Char → Bool
  | [], [] => false
  | [], _ :: _ => true
  | _ :: _, [] => false
  | a :: as, b :: bs =>
    if a.toNat < b.toNat then true
    else if b.toNat < a.toNat then false
    else strLt as bs

/-- Python `<` on the `dt` strings, used as the sort key of the merge. -/
def dtLt (a b : String) : Bool := strLt a.data b.data

/-- Modelled from the spec: the `ForecastObservation` pydantic model
(§3 of the spec; the class itself is imported from a `models` module that
is not under `src/`). `dt` is the ISO-8601 date string, `value` the
originally published number, `forecast` the value if the row was a
forecast at publication time (else null), `observation` the realized
value once known (else null). -/
structure ForecastObservation where
  dt : String
  value : Rat
  forecast : Option Rat
  observation : Option Rat
deriving DecidableEq, Repr

/-- Modelled from the spec: the `ForecastMetadata` pydantic model (§3).
`forecast_cutoff_date` is a required, already-validated calendar date —
the merge reads it directly without re-parsing. Fields the merge never
reads are kept as inert optional strings. -/
structure ForecastMetadata where
  policy_round : String
  forecast_cutoff_date : PyDate
  policy_round_end_dtm : Option String
  revision_dtm : Option String
deriving DecidableEq, Repr

/-- Modelled from the spec: the `ForecastVintage` pydantic model (§3): one
published snapshot of a series, metadata plus dated observations. -/
structure ForecastVintage where
  metadata : ForecastMetadata
  observations : List ForecastObservation
deriving DecidableEq, Repr

/-- Modelled from the spec: the `MonetaryPolicyDataResponse` model (§6):
one series identifier together with its fetched vintages. -/
structure MonetaryPolicyDataResponse where
  external_id : String
  vintages : List ForecastVintage
deriving DecidableEq, Repr

/-- Modelled from the spec: the `PolicyRound` model (§3): an identifier of
the form `YYYY:N` split into its year and iteration numbers. -/
structure PolicyRound where
  id : String
  year : Int
  iteration : Int
deriving DecidableEq, Repr

/-- Python dict lookup `m.get(k)` on an association list with unique keys. -/
def dictGet (m : List (String × Rat)) (k : String) : Option Rat :=
  match m.find? (fun p => p.1 == k) with
  | some p => some p.2
  | none => none

/-- Python dict insertion `m[k] = v`: overwrite an existing binding of `k`,
otherwise append the new binding (dicts preserve insertion order). -/
def dictInsert (m : List (String × Rat)) (k : String) (v : Rat) : List (String × Rat) :=
  if m.any (fun p => p.1 == k) then
    m.map (fun p => if p.1 == k then (k, v) else p)
  else m ++ [(k, v)]

/-- The `obs_map` dict comprehension of `merge_realized`
(`realized_merge.py` lines 23-28): from the latest vintage's observations,
map `dt` to `value` for every row whose `observation` field is non-null
and whose parsed date is strictly after the base cutoff. Evaluating
`date.fromisoformat` on a malformed `dt` raises, which aborts the whole
comprehension — embedded as an `Except.error` (Python short-circuits
`and`, so rows with a null `observation` are never parsed). -/
def buildObsMap (cut : PyDate) : List ForecastObservation → List (String × Rat) →
    Except String (List (String × Rat))
  | [], m => .ok m
  | o :: os, m =>
    if o.observation.isSome then
      match parseIsoDate o.dt with
      | none => .error ("Invalid isoformat string: " ++ o.dt)
      | some d =>
        if pyDateLt cut d then buildObsMap cut os (dictInsert m o.dt o.value)
        else buildObsMap cut os m
    else buildObsMap cut os m

/-- The enrichment of one base row (`realized_merge.py` lines 30-43): a
forecast row looks its date up in the realized map, a historical row's
`observation` is its own `value`; `dt`, `value` and `forecast` are
copied unchanged. -/
def enrichRow (m : List (String × Rat)) (o : ForecastObservation) : ForecastObservation :=
  { dt := o.dt, value := o.value, forecast := o.forecast,
    observation := if o.forecast.isSome then dictGet m o.dt else some o.value }

/-- The `tail` comprehension of `merge_realized` (`realized_merge.py`
lines 45-58): rows of the latest vintage whose `observation` is non-null
and whose date is not among the base dates are appended with
`forecast = None` and `observation = value`. -/
def tailRows (baseDates : List String) : List ForecastObservation → List ForecastObservation
  | [] => []
  | o :: os =>
    if o.observation.isSome ∧ o.dt ∉ baseDates then
      { dt := o.dt, value := o.value, forecast := none, observation := some o.value }
        :: tailRows baseDates os
    else tailRows baseDates os

/-- Stable insertion of a row into a list sorted ascending by `dt`: the
new row goes before the first strictly greater key, after equal keys. -/
def insertByDt (x : ForecastObservation) : List ForecastObservation → List ForecastObservation
  | [] => [x]
  | y :: ys => if dtLt y.dt x.dt then y :: insertByDt x ys else x :: y :: ys

/-- Stable sort ascending by the `dt` string, as Python's
`sorted(..., key=lambda r: r.dt)`. -/
def sortByDt : List ForecastObservation → List ForecastObservation
  | [] => []
  | x :: xs => insertByDt x (sortByDt xs)

/-- Embedding of `merge_realized(base, latest)`
(`src/swemo_mcp/utils/realized_merge.py`): build the realized lookup from
`latest`, enrich every base row, append latest realized rows with new
dates, sort the combination by date string, and return `base` with its
observations replaced (`model_copy`). An exception escaping the
`obs_map` comprehension is an `Except.error`. -/
def mergeRealized (base latest : ForecastVintage) : Except String ForecastVintage :=
  match buildObsMap base.metadata.forecast_cutoff_date latest.observations [] with
  | .error e => .error e
  | .ok m =>
    let enriched := base.observations.map (enrichRow m)
    let baseDates := base.observations.map (fun o => o.dt)
    let tail := tailRows baseDates latest.observations
    .ok { base with observations := sortByDt (enriched ++ tail) }

/-- Boolean success test for an `Except` value. -/
def exceptIsOk {ε α : Type} : Except ε α → Bool
  | .ok _ => true
  | .error _ => false

/-- Minimal JSON value type for response bodies; the fetch client treats
the parsed body as opaque, so only construction and equality matter. -/
inductive RJson where
  | null
  | bool (b : Bool)
  | num (n : Int)
  | str (s : String)
  | arr (items : List RJson)
  | obj (fields : List (String × RJson))

/-- The empty JSON object `{}` returned on 404 and on an empty body. -/
def rjsonEmpty : RJson := .obj []

/-- One scripted HTTP reply for the fetch client: a status code and the
parsed JSON body (`none` models an empty response body). -/
structure HttpResp where
  status : Nat
  body : Option RJson

/-- Outcome of `riksbanken_request`: a returned body together with the
sequence of backoff sleeps performed (in seconds), or the raised
exception. `noScriptedResponse` is a model artifact marking that the
scripted reply list was shorter than the number of attempts made. -/
inductive ReqResult where
  | success (body : RJson) (sleeps : List Nat)
  | httpStatusError (status : Nat) (sleeps : List Nat)
  | maxRetriesExceeded (sleeps : List Nat)
  | noScriptedResponse (sleeps : List Nat)

/-- The retry loop of `riksbanken_request`
(`src/swemo_mcp/services/monetary_policy_api.py` lines 46-65):
`for attempt in range(retries)`, a 2xx reply returns its parsed body (an
empty body returns the empty object without a parse attempt), a 404
returns the empty object, a 429 with attempts left sleeps `2 ** attempt`
seconds and retries, any other status re-raises, and falling off the
loop raises `RuntimeError` (max retries exceeded). -/
def reqLoop (retries : Nat) : List HttpResp → Nat → List Nat → ReqResult
  | resps, attempt, sleeps =>
    if attempt < retries then
      match resps with
      | [] => .noScriptedResponse sleeps
      | r :: rest =>
        if 200 ≤ r.status ∧ r.status < 300 then .success (r.body.getD rjsonEmpty) sleeps
        else if r.status = 404 then .success rjsonEmpty sleeps
        else if r.status = 429 ∧ attempt < retries - 1 then
          reqLoop retries rest (attempt + 1) (sleeps ++ [2 ^ attempt])
        else .httpStatusError r.status sleeps
    else .maxRetriesExceeded sleeps

/-- Embedding of `riksbanken_request` run against a scripted sequence of
replies (the reply to attempt `n` is the `n`-th list element); the
endpoint and query parameters only shape the request URL and are
irrelevant to the control flow embedded here. -/
def riksbankenRequest (retries : Nat) (resps : List HttpResp) : ReqResult :=
  reqLoop retries resps 0 []

/-- The fetch client at its default retry budget (`retries: int = 5`). -/
def riksbankenRequestDefault (resps : List HttpResp) : ReqResult :=
  riksbankenRequest 5 resps

/-- A scripted HTTP 429 (rate limited) reply. -/
def resp429 : HttpResp := { status := 429, body := none }

/-- Abstract syntax of the regular-expression fragment needed for the
`ForecastRequest.policy_round` pattern: empty word, single character,
character class, concatenation and alternation. -/
inductive Regex where
  | eps
  | chr (c : Char)
  | cls (p : Char → Bool)
  | seq (r1 r2 : Regex)
  | alt (r1 r2 : Regex)

/-- Language membership for `Regex`, on the full character list (the
source pattern is anchored with both `^` and `$`, so matching is
whole-string). Concatenation tries every split point. -/
def rmatch : Regex → List Char → Bool
  | .eps, [] => true
  | .eps, _ :: _ => false
  | .chr _, [] => false
  | .chr c, [x] => x == c
  | .chr _, _ :: _ :: _ => false
  | .cls _, [] => false
  | .cls p, [x] => p x
  | .cls _, _ :: _ :: _ => false
  | .alt r1 r2, l => rmatch r1 l || rmatch r2 l
  | .seq r1 r2, l =>
    (List.range (l.length + 1)).any fun i => rmatch r1 (l.take i) && rmatch r2 (l.drop i)

/-- A regex matching one literal character sequence. -/
def litRegex : List Char → Regex
  | [] => .eps
  | c :: cs => .seq (.chr c) (litRegex cs)

/-- The `\d{4}:\d` branch of the policy-round pattern. -/
def policyRoundDigits : Regex :=
  .seq (.cls Char.isDigit) (.seq (.cls Char.isDigit) (.seq (.cls Char.isDigit)
    (.seq (.cls Char.isDigit) (.seq (.chr ':') (.cls Char.isDigit)))))

/-- The pattern of `ForecastRequest.policy_round`
(`src/riksbank_mcp/query.py` lines 9-11): the anchored regular
expression matching four digits, a colon and one digit, or the literal
string `latest`. -/
def policyRoundRegex : Regex := .alt policyRoundDigits (litRegex "latest".data)

/-- Embedding of the `ForecastRequest` pydantic model
(`src/riksbank_mcp/query.py`): the shared argument object of every
forecast tool. -/
structure ForecastRequest where
  policy_round : Option String
  include_realized : Bool
deriving DecidableEq, Repr

/-- Validation applied to the `policy_round` field: `None` is allowed,
a string must match the anchored pattern. -/
def policyRoundOk (pr : Option String) : Bool :=
  match pr with
  | none => true
  | some s => rmatch policyRoundRegex s.data

/-- Construction of a `ForecastRequest` through pydantic validation: a
`policy_round` value failing the pattern is rejected with a validation
error at the request boundary. -/
def mkForecastRequest (pr : Option String) (ir : Bool) : Except String ForecastRequest :=
  if policyRoundOk pr then .ok { policy_round := pr, include_realized := ir }
  else .error "String should match pattern"

/-- The fold inside `max(rounds.rounds, key=lambda r: (r.year, r.iteration))`
(`monetary_policy_tools.py` line 244): Python `max` keeps the current
maximum and replaces it only on a strictly greater key, so the first
maximal element wins. -/
def maxRoundAux (best : PolicyRound) : List PolicyRound → PolicyRound
  | [] => best
  | r :: rest =>
    maxRoundAux
      (if best.year < r.year ∨ (best.year = r.year ∧ best.iteration < r.iteration)
       then r else best) rest

/-- Network effects performed by the orchestrator, in order: a vintage
fetch for a series and optional round, the policy-round catalogue fetch,
and the invocation of the merge engine. -/
inductive FetchEv where
  | fetchVintages (series : String) (round : Option String)
  | listRounds
  | mergeApplied
deriving DecidableEq, Repr

/-- Embedding of `_fetch_series`
(`src/riksbank_mcp/tools/monetary_policy_tools.py` lines 235-252). The
injected fetcher is a pure function from series id and optional round to
the response it would return; `rounds` is the catalogue
`list_policy_rounds` would return. Alongside the response, the sequence
of performed network effects is recorded. The merge call resolves to the
realized-merge engine embedded above (`mergeRealized`, the
nullable-`forecast` variant the spec adopts); an exception escaping it
propagates, so the result is an `Except`. After a merge, the code
executes `base.vintages[0] = merged` and returns the same `base` object:
embedded as the base response with index 0 of its vintage list
replaced. -/
def fetchSeries (fetcher : String → Option String → MonetaryPolicyDataResponse)
    (rounds : List PolicyRound) (seriesId : String) (req : ForecastRequest) :
    Except String (MonetaryPolicyDataResponse × List FetchEv) :=
  let base := fetcher seriesId req.policy_round
  let ev0 : List FetchEv := [.fetchVintages seriesId req.policy_round]
  if req.include_realized then
    let ev1 := ev0 ++ [.listRounds]
    match rounds with
    | [] => .ok (base, ev1)
    | r :: rest =>
      let latestRound := (maxRoundAux r rest).id
      if some latestRound ≠ req.policy_round then
        let latest := fetcher seriesId (some latestRound)
        let ev2 := ev1 ++ [.fetchVintages seriesId (some latestRound)]
        match base.vintages, latest.vintages with
        | b0 :: btl, l0 :: _ =>
          match mergeRealized b0 l0 with
          | .ok merged => .ok ({ base with vintages := merged :: btl }, ev2 ++ [.mergeApplied])
          | .error e => .error e
        | _, _ => .ok (base, ev2)
      else .ok (base, ev1)
  else .ok (base, ev0)

/-- The vintage invariant of the spec's data model (§3): the cutoff date
partitions a vintage's observations — a row dated strictly after the
cutoff is a pure forecast (`forecast = value`, `observation` null), a
row dated on or before it is realized history (`forecast` null,
`observation = value`), and every row's date parses. This is exactly
what the response parser in `get_policy_data` produces. -/
def specVintageInvariant (v : ForecastVintage) : Prop :=
  ∀ o ∈ v.observations, ∃ d, parseIsoDate o.dt = some d ∧
    (pyDateLt v.metadata.forecast_cutoff_date d = true →
      o.forecast = some o.value ∧ o.observation = none) ∧
    (pyDateLt v.metadata.forecast_cutoff_date d = false →
      o.forecast = none ∧ o.observation = some o.value)

/-- Metadata of a sample vintage from policy round 2024:1 with cutoff
2024-03-31 (spec §8, Scenario 1). -/
def metaA : ForecastMetadata :=
  { policy_round := "2024:1", forecast_cutoff_date := ⟨2024, 3, 31⟩,
    policy_round_end_dtm := none, revision_dtm := none }

/-- Base vintage with a single historical row dated on the cutoff. -/
def c1base : ForecastVintage :=
  { metadata := metaA,
    observations := [⟨"2024-03-31", 21/10, none, some (21/10)⟩] }

/-- Latest vintage carrying a realized row dated long before the base
cutoff and absent from the base window. -/
def c1latest : ForecastVintage :=
  { metadata := metaA,
    observations := [⟨"2020-01-01", 5, none, some 5⟩] }

/-- The appended row produced by merging `c1base` with `c1latest`. -/
def c1row : ForecastObservation := ⟨"2020-01-01", 5, none, some 5⟩

/-- The merge output for `c1base` and `c1latest`. -/
def c1out : ForecastVintage :=
  { metadata := metaA,
    observations := [c1row, ⟨"2024-03-31", 21/10, none, some (21/10)⟩] }

/-- A base vintage whose observation list repeats one date. -/
def c2base : ForecastVintage :=
  { metadata := metaA,
    observations := [⟨"2024-06-30", 5/2, some (5/2), none⟩,
                     ⟨"2024-06-30", 5/2, some (5/2), none⟩] }

/-- A latest vintage with no observations. -/
def c2latest : ForecastVintage := { metadata := metaA, observations := [] }

/-- The merge output for `c2base` and `c2latest`: the duplicate survives. -/
def c2out : ForecastVintage :=
  { metadata := metaA,
    observations := [⟨"2024-06-30", 5/2, some (5/2), none⟩,
                     ⟨"2024-06-30", 5/2, some (5/2), none⟩] }

/-- A base vintage with no observations. -/
def c4base : ForecastVintage := { metadata := metaA, observations := [] }

/-- A latest vintage whose single realized row has a malformed date. -/
def c4latest : ForecastVintage :=
  { metadata := metaA, observations := [⟨"not-a-date", 1, none, some 1⟩] }

/-- Base vintage of spec §8 Scenario 1: one historical row on the cutoff
and one forecast row beyond it. -/
def w3base : ForecastVintage :=
  { metadata := metaA,
    observations := [⟨"2024-03-31", 21/10, none, some (21/10)⟩,
                     ⟨"2024-06-30", 5/2, some (5/2), none⟩] }

/-- Latest vintage of spec §8 Scenario 1: the 2024-06-30 outturn. -/
def w3latest : ForecastVintage :=
  { metadata := metaA,
    observations := [⟨"2024-06-30", 12/5, none, some (12/5)⟩] }

/-- Merge output of Scenario 1: the forecast row keeps its forecast and
gains the realized value. -/
def w3out : ForecastVintage :=
  { metadata := metaA,
    observations := [⟨"2024-03-31", 21/10, none, some (21/10)⟩,
                     ⟨"2024-06-30", 5/2, some (5/2), some (12/5)⟩] }

/-- A vintage with no observations, for orchestrator runs. -/
def vEmpty : ForecastVintage := { metadata := metaA, observations := [] }

/-- A fetcher stub returning one empty vintage for every query. -/
def cxFetcher : String → Option String → MonetaryPolicyDataResponse :=
  fun sid _ => { external_id := sid, vintages := [vEmpty] }

/-- A one-round catalogue whose latest round is 2024:2. -/
def cxRounds : List PolicyRound := [{ id := "2024:2", year := 2024, iteration := 2 }]

/-!
Helper lemmas about the merge engine's building blocks.
-/

theorem insertByDt_perm (x : ForecastObservation) (l : List ForecastObservation) :
    (insertByDt x l).Perm (x :: l) := by
  induction l with
  | nil => rfl
  | cons y ys ih =>
    rw [insertByDt]
    split
    · exact (ih.cons y).trans (List.Perm.swap x y ys)
    · rfl

theorem sortByDt_perm (l : List ForecastObservation) : (sortByDt l).Perm l := by
  induction l with
  | nil => rfl
  | cons x xs ih => exact (insertByDt_perm x (sortByDt xs)).trans (ih.cons x)

theorem mem_tailRows (bd : List String) (l : List ForecastObservation) (r : ForecastObservation) :
    r ∈ tailRows bd l ↔ ∃ o ∈ l, o.observation.isSome = true ∧ o.dt ∉ bd ∧
      r = { dt := o.dt, value := o.value, forecast := none, observation := some o.value } := by
  induction l with
  | nil => simp [tailRows]
  | cons o os ih =>
    by_cases h : o.observation.isSome = true ∧ o.dt ∉ bd
    · rw [tailRows, if_pos h]
      simp only [List.mem_cons]
      constructor
      · rintro (rfl | hr)
        · exact ⟨o, Or.inl rfl, h.1, h.2, rfl⟩
        · obtain ⟨o', ho', h1, h2, rfl⟩ := ih.mp hr
          exact ⟨o', Or.inr ho', h1, h2, rfl⟩
      · rintro ⟨o', ho' | ho', h1, h2, rfl⟩
        · subst ho'; exact Or.inl rfl
        · exact Or.inr (ih.mpr ⟨o', ho', h1, h2, rfl⟩)
    · rw [tailRows, if_neg h, ih]
      constructor
      · rintro ⟨o', ho', h1, h2, rfl⟩
        exact ⟨o', List.mem_cons_of_mem _ ho', h1, h2, rfl⟩
      · rintro ⟨o', ho', h1, h2, rfl⟩
        rcases List.mem_cons.mp ho' with h' | ho'
        · subst h'; exact absurd ⟨h1, h2⟩ h
        · exact ⟨o', ho', h1, h2, rfl⟩

theorem tailRows_dt_sublist (bd : List String) (l : List ForecastObservation) :
    ((tailRows bd l).map (fun o => o.dt)).Sublist (l.map (fun o => o.dt)) := by
  induction l with
  | nil => simp [tailRows]
  | cons o os ih =>
    rw [tailRows]
    split
    · simpa using ih.cons₂ o.dt
    · exact ih.cons o.dt

theorem tailRows_eq_nil (bd : List String) (l : List ForecastObservation)
    (h : ∀ o ∈ l, o.dt ∈ bd) : tailRows bd l = [] := by
  induction l with
  | nil => rfl
  | cons o os ih =>
    rw [tailRows, if_neg, ih]
    · intro o' ho'; exact h o' (List.mem_cons_of_mem _ ho')
    · rintro ⟨-, hnot⟩; exact hnot (h o (List.mem_cons_self o os))

theorem buildObsMap_isOk (cut : PyDate) (l : List ForecastObservation) :
    ∀ m, exceptIsOk (buildObsMap cut l m) = true ↔
      ∀ o ∈ l, o.observation.isSome = true → (parseIsoDate o.dt).isSome = true := by
  induction l with
  | nil => intro m; simp [buildObsMap, exceptIsOk]
  | cons o os ih =>
    intro m
    by_cases hobs : o.observation.isSome = true
    · cases hp : parseIsoDate o.dt with
      | none =>
        have hred : buildObsMap cut (o :: os) m =
            .error ("Invalid isoformat string: " ++ o.dt) := by
          rw [buildObsMap, if_pos hobs, hp]
        rw [hred]
        constructor
        · intro hfalse; exact absurd hfalse (by simp [exceptIsOk])
        · intro hall
          have := hall o (List.mem_cons_self o os) hobs
          rw [hp] at this
          exact absurd this (by simp)
      | some d =>
        have hRight : (∀ o' ∈ o :: os, o'.observation.isSome = true →
            (parseIsoDate o'.dt).isSome = true) ↔
            ∀ o' ∈ os, o'.observation.isSome = true → (parseIsoDate o'.dt).isSome = true := by
          rw [List.forall_mem_cons]
          simp [hp]
        have hred : buildObsMap cut (o :: os) m =
            if pyDateLt cut d then buildObsMap cut os (dictInsert m o.dt o.value)
            else buildObsMap cut os m := by
          rw [buildObsMap, if_pos hobs, hp]
        rw [hred, hRight]
        by_cases hlt : pyDateLt cut d = true
        · rw [if_pos hlt, ih]
        · rw [if_neg hlt, ih]
    · have hred : buildObsMap cut (o :: os) m = buildObsMap cut os m := by
        rw [buildObsMap, if_neg hobs]
      rw [hred, ih, List.forall_mem_cons]
      constructor
      · intro h; exact ⟨fun hc => absurd hc hobs, h⟩
      · intro h; exact h.2

theorem buildObsMap_no_new_realized (cut : PyDate) (l : List ForecastObservation)
    (h : ∀ o ∈ l, o.observation.isSome = true →
      ∃ d, parseIsoDate o.dt = some d ∧ pyDateLt cut d = false) :
    ∀ m, buildObsMap cut l m = .ok m := by
  induction l with
  | nil => intro m; rfl
  | cons o os ih =>
    intro m
    by_cases hobs : o.observation.isSome = true
    · obtain ⟨d, hp, hlt⟩ := h o (List.mem_cons_self o os) hobs
      have h1 : buildObsMap cut (o :: os) m =
          if pyDateLt cut d then buildObsMap cut os (dictInsert m o.dt o.value)
          else buildObsMap cut os m := by
        rw [buildObsMap, if_pos hobs, hp]
      have hred : buildObsMap cut (o :: os) m = buildObsMap cut os m := by
        rw [h1, if_neg]
        rw [hlt]
        exact Bool.false_ne_true
      rw [hred]
      exact ih (fun o' ho' => h o' (List.mem_cons_of_mem _ ho')) m
    · have hred : buildObsMap cut (o :: os) m = buildObsMap cut os m := by
        rw [buildObsMap, if_neg hobs]
      rw [hred]
      exact ih (fun o' ho' => h o' (List.mem_cons_of_mem _ ho')) m

theorem mergeRealized_ok_elim (base latest out : ForecastVintage)
    (h : mergeRealized base latest = .ok out) :
    ∃ m, buildObsMap base.metadata.forecast_cutoff_date latest.observations [] = .ok m ∧
      out = ForecastVintage.mk base.metadata
        (sortByDt (base.observations.map (enrichRow m) ++
          tailRows (base.observations.map (fun o => o.dt)) latest.observations)) := by
  unfold mergeRealized at h
  cases hbm : buildObsMap base.metadata.forecast_cutoff_date latest.observations [] with
  | error e => rw [hbm] at h; cases h
  | ok m =>
    rw [hbm] at h
    injection h with h'
    exact ⟨m, rfl, h'.symm⟩

/-!
Claim theorems about the merge engine.
-/

/-- C3 (confirmed): for every base row with a non-null forecast, the merge
output contains a row with the same date and the identical forecast
value; for every base row with a null forecast, the output contains a row
with the same date whose realized value is the row's own value. -/
theorem mergeRealized_forecast_preservation (base latest out : ForecastVintage)
    (h : mergeRealized base latest = .ok out) :
    (∀ o ∈ base.observations, o.forecast.isSome = true →
      ∃ r ∈ out.observations, r.dt = o.dt ∧ r.forecast = o.forecast) ∧
    (∀ o ∈ base.observations, o.forecast = none →
      ∃ r ∈ out.observations, r.dt = o.dt ∧ r.observation = some o.value) := by
  obtain ⟨m, hbm, rfl⟩ := mergeRealized_ok_elim base latest out h
  have hmem : ∀ o ∈ base.observations, enrichRow m o ∈
      sortByDt (base.observations.map (enrichRow m) ++
        tailRows (base.observations.map (fun o => o.dt)) latest.observations) := by
    intro o ho
    exact (sortByDt_perm _).mem_iff.mpr
      (List.mem_append_left _ (List.mem_map_of_mem (enrichRow m) ho))
  constructor
  · intro o ho _
    exact ⟨enrichRow m o, hmem o ho, rfl, rfl⟩
  · intro o ho hfc
    refine ⟨enrichRow m o, hmem o ho, rfl, ?_⟩
    simp [enrichRow, hfc]

/-- Witness for C3: spec §8 Scenario 1 — the 2024-06-30 forecast row keeps
its forecast 2.5 and the 2024-03-31 historical row reconciles to its own
value 2.1. -/
theorem mergeRealized_forecast_preservation_witness :
    (∃ r ∈ w3out.observations, r.dt = "2024-06-30" ∧ r.forecast = some ((5 : Rat)/2)) ∧
    (∃ r ∈ w3out.observations, r.dt = "2024-03-31" ∧ r.observation = some ((21 : Rat)/10)) := by
  have h := mergeRealized_forecast_preservation w3base w3latest w3out rfl
  constructor
  · exact h.1 ⟨"2024-06-30", 5/2, some (5/2), none⟩ (by simp [w3base]) rfl
  · exact h.2 ⟨"2024-03-31", 21/10, none, some (21/10)⟩ (by simp [w3base]) rfl

/-- C1 (counterexample): merging `c1base` (cutoff 2024-03-31) with
`c1latest` appends the realized row dated 2020-01-01 even though that
date is not strictly after the base cutoff — the appended-tail filter of
the code checks only `observation is not None` and absence from the base
dates, never the cutoff, refuting the claim that rows dated on or before
the cutoff are never appended. -/
theorem mergeRealized_tail_ignores_cutoff_counterexample :
    mergeRealized c1base c1latest = .ok c1out ∧
    c1row ∈ c1out.observations ∧
    c1row.dt ∉ c1base.observations.map (fun o => o.dt) ∧
    parseIsoDate c1row.dt = some ⟨2020, 1, 1⟩ ∧
    pyDateLt c1base.metadata.forecast_cutoff_date ⟨2020, 1, 1⟩ = false :=
  ⟨rfl, by simp [c1out], by simp [c1row, c1base], rfl, rfl⟩

/-- C1 (amended): every output row whose date is not among the base dates
is an appended row with null forecast and realized equal to its value,
and comes from a row of `latest` with a non-null `observation` field —
with no restriction on its position relative to the base cutoff;
conversely every such row of `latest` is appended. -/
theorem mergeRealized_appended_rows (base latest out : ForecastVintage)
    (h : mergeRealized base latest = .ok out) :
    (∀ r ∈ out.observations, r.dt ∉ base.observations.map (fun o => o.dt) →
      r.forecast = none ∧ r.observation = some r.value ∧
      ∃ o ∈ latest.observations, o.observation.isSome = true ∧ o.dt = r.dt ∧ o.value = r.value) ∧
    (∀ o ∈ latest.observations, o.observation.isSome = true →
      o.dt ∉ base.observations.map (fun o => o.dt) →
      ∃ r ∈ out.observations, r.dt = o.dt ∧ r.forecast = none ∧ r.observation = some o.value) := by
  obtain ⟨m, hbm, rfl⟩ := mergeRealized_ok_elim base latest out h
  constructor
  · intro r hr hnot
    have hr' := (sortByDt_perm _).mem_iff.mp hr
    rcases List.mem_append.mp hr' with henr | htail
    · obtain ⟨o, ho, rfl⟩ := List.mem_map.mp henr
      exact absurd (List.mem_map_of_mem (fun o => o.dt) ho) hnot
    · obtain ⟨o, ho, h1, h2, rfl⟩ := (mem_tailRows _ _ _).mp htail
      exact ⟨rfl, rfl, o, ho, h1, rfl, rfl⟩
  · intro o ho h1 h2
    refine ⟨{ dt := o.dt, value := o.value, forecast := none, observation := some o.value },
      ?_, rfl, rfl, rfl⟩
    exact (sortByDt_perm _).mem_iff.mpr
      (List.mem_append_right _ ((mem_tailRows _ _ _).mpr ⟨o, ho, h1, h2, rfl⟩))

/-- Witness for the amended C1: the realized 2020-01-01 row of `c1latest`
is appended with null forecast and realized 5. -/
theorem mergeRealized_appended_rows_witness :
    ∃ r ∈ c1out.observations, r.dt = "2020-01-01" ∧ r.forecast = none ∧
      r.observation = some (5 : Rat) := by
  have h := (mergeRealized_appended_rows c1base c1latest c1out rfl).2
  exact h ⟨"2020-01-01", 5, none, some 5⟩ (by simp [c1latest]) rfl (by simp [c1base])

/-- C2 (counterexample): a base vintage repeating the date 2024-06-30
merges (against an empty latest vintage) into an output that still
repeats that date — the code deduplicates only the appended tail against
the base, never the base rows against each other. -/
theorem mergeRealized_duplicate_dates_counterexample :
    mergeRealized c2base c2latest = .ok c2out ∧
    ¬ (c2out.observations.map (fun o => o.dt)).Nodup := by
  refine ⟨rfl, ?_⟩
  have e : c2out.observations.map (fun o => o.dt) = ["2024-06-30", "2024-06-30"] := rfl
  rw [e]
  decide

/-- C2 (amended): whenever the observation dates of `base` and of `latest`
are each duplicate-free, the merge output has no two rows with the same
date. -/
theorem mergeRealized_nodup_dates (base latest out : ForecastVintage)
    (hb : (base.observations.map (fun o => o.dt)).Nodup)
    (hl : (latest.observations.map (fun o => o.dt)).Nodup)
    (h : mergeRealized base latest = .ok out) :
    (out.observations.map (fun o => o.dt)).Nodup := by
  obtain ⟨m, hbm, rfl⟩ := mergeRealized_ok_elim base latest out h
  have hperm := ((sortByDt_perm (base.observations.map (enrichRow m) ++
    tailRows (base.observations.map (fun o => o.dt)) latest.observations)).map
    (fun o => o.dt))
  refine hperm.nodup_iff.mpr ?_
  rw [List.map_append]
  have henr : (base.observations.map (enrichRow m)).map (fun o => o.dt) =
      base.observations.map (fun o => o.dt) := by
    rw [List.map_map]; rfl
  rw [henr]
  refine List.Nodup.append hb (((tailRows_dt_sublist _ _)).nodup hl) ?_
  intro x hx hx'
  obtain ⟨r, hr, rfl⟩ := List.mem_map.mp hx'
  obtain ⟨o, ho, h1, h2, rfl⟩ := (mem_tailRows _ _ _).mp hr
  exact h2 hx

/-- Witness for the amended C2: Scenario 1's vintages have duplicate-free
dates and so does their merge output. -/
theorem mergeRealized_nodup_dates_witness :
    (w3base.observations.map (fun o => o.dt)).Nodup ∧
    (w3latest.observations.map (fun o => o.dt)).Nodup ∧
    (w3out.observations.map (fun o => o.dt)).Nodup := by
  have eb : w3base.observations.map (fun o => o.dt) = ["2024-03-31", "2024-06-30"] := rfl
  have el : w3latest.observations.map (fun o => o.dt) = ["2024-06-30"] := rfl
  refine ⟨by rw [eb]; decide, by rw [el]; decide,
    mergeRealized_nodup_dates w3base w3latest w3out ?_ ?_ rfl⟩
  · rw [eb]; decide
  · rw [el]; decide

/-- C4 (counterexample): a latest vintage whose realized row has the
malformed date `not-a-date` makes `merge_realized` abort with a raised
error — the row is not skipped and the merge of the remaining rows does
not complete; no `InvalidVintageMetadata` error type exists in the code. -/
theorem mergeRealized_malformed_row_aborts :
    mergeRealized c4base c4latest = .error "Invalid isoformat string: not-a-date" := rfl

/-- C4 (amended): `merge_realized` succeeds exactly when every row of
`latest` with a non-null `observation` has a parseable date; a malformed
date on such a row aborts the whole merge (nothing is skipped), the
cutoff is an already-validated date on the metadata model so no
`InvalidVintageMetadata` failure can arise inside the merge, and
malformed dates on base rows or on null-observation rows of `latest` are
never parsed at all. -/
theorem mergeRealized_success_characterization (base latest : ForecastVintage) :
    exceptIsOk (mergeRealized base latest) = true ↔
      ∀ o ∈ latest.observations, o.observation.isSome = true →
        (parseIsoDate o.dt).isSome = true := by
  have hsame : exceptIsOk (mergeRealized base latest) =
      exceptIsOk (buildObsMap base.metadata.forecast_cutoff_date latest.observations []) := by
    cases hbm : buildObsMap base.metadata.forecast_cutoff_date latest.observations [] with
    | error e => rw [mergeRealized, hbm]; rfl
    | ok m => rw [mergeRealized, hbm]; rfl
  rw [hsame, buildObsMap_isOk]

/-- C6 (confirmed): for every vintage satisfying the spec's §3 vintage
invariant (the cutoff date partitions rows into realized history and pure
forecasts, exactly what the response parser produces), a self-merge
leaves every forecast row's forecast value unchanged and sets a non-null
realized value exactly on the rows dated on or before the vintage's own
cutoff. -/
theorem mergeRealized_self_merge (v out : ForecastVintage)
    (hw : specVintageInvariant v) (h : mergeRealized v v = .ok out) :
    (∀ o ∈ v.observations, o.forecast.isSome = true →
      ∃ r ∈ out.observations, r.dt = o.dt ∧ r.forecast = o.forecast) ∧
    (∀ r ∈ out.observations, (r.observation.isSome = true ↔
      ∃ d, parseIsoDate r.dt = some d ∧
        pyDateLt v.metadata.forecast_cutoff_date d = false)) := by
  obtain ⟨m, hbm, rfl⟩ := mergeRealized_ok_elim v v out h
  have hm : m = [] := by
    have h0 : buildObsMap v.metadata.forecast_cutoff_date v.observations [] = .ok [] := by
      apply buildObsMap_no_new_realized
      intro o ho hobs
      obtain ⟨d, hp, h1, h2⟩ := hw o ho
      cases hlt : pyDateLt v.metadata.forecast_cutoff_date d with
      | true =>
        rw [(h1 hlt).2] at hobs
        exact absurd hobs (by simp)
      | false => exact ⟨d, hp, hlt⟩
    rw [h0] at hbm
    injection hbm with h'
    exact h'.symm
  subst hm
  have htail : tailRows (v.observations.map (fun o => o.dt)) v.observations = [] :=
    tailRows_eq_nil _ _ (fun o ho => List.mem_map_of_mem _ ho)
  constructor
  · intro o ho _
    refine ⟨enrichRow [] o, ?_, rfl, rfl⟩
    exact (sortByDt_perm _).mem_iff.mpr
      (List.mem_append_left _ (List.mem_map_of_mem _ ho))
  · intro r hr
    have hr' := (sortByDt_perm _).mem_iff.mp hr
    rw [htail, List.append_nil] at hr'
    obtain ⟨o, ho, rfl⟩ := List.mem_map.mp hr'
    obtain ⟨d, hp, h1, h2⟩ := hw o ho
    have hdt : (enrichRow [] o).dt = o.dt := rfl
    rw [hdt]
    cases hlt : pyDateLt v.metadata.forecast_cutoff_date d with
    | true =>
      obtain ⟨hf, -⟩ := h1 hlt
      have hobs : (enrichRow [] o).observation = none := by
        simp [enrichRow, hf, dictGet]
      rw [hobs]
      simp only [Option.isSome_none, Bool.false_eq_true, false_iff]
      rintro ⟨d', hp', hlt'⟩
      rw [hp] at hp'
      injection hp' with hdd
      rw [hdd] at hlt
      rw [hlt] at hlt'
      exact Bool.noConfusion hlt'
    | false =>
      obtain ⟨hf, -⟩ := h2 hlt
      have hobs : (enrichRow [] o).observation = some o.value := by
        simp [enrichRow, hf]
      rw [hobs]
      simp only [Option.isSome_some, true_iff]
      exact ⟨d, hp, hlt⟩

/-- Witness for C6: Scenario 1's base vintage satisfies the §3 invariant,
its self-merge succeeds unchanged, and its forecast row keeps forecast
2.5. -/
theorem mergeRealized_self_merge_witness :
    specVintageInvariant w3base ∧
    (∃ r ∈ w3base.observations, r.dt = "2024-06-30" ∧ r.forecast = some ((5 : Rat)/2)) := by
  have hw : specVintageInvariant w3base := by
    intro o ho
    have ho' : o = ⟨"2024-03-31", 21/10, none, some (21/10)⟩ ∨
        o = ⟨"2024-06-30", 5/2, some (5/2), none⟩ := by
      simpa [w3base] using ho
    rcases ho' with rfl | rfl
    · refine ⟨⟨2024, 3, 31⟩, rfl, ?_, ?_⟩
      · intro hc
        rw [show pyDateLt w3base.metadata.forecast_cutoff_date ⟨2024, 3, 31⟩ = false from rfl]
          at hc
        exact Bool.noConfusion hc
      · intro _; exact ⟨rfl, rfl⟩
    · refine ⟨⟨2024, 6, 30⟩, rfl, ?_, ?_⟩
      · intro _; exact ⟨rfl, rfl⟩
      · intro hc
        rw [show pyDateLt w3base.metadata.forecast_cutoff_date ⟨2024, 6, 30⟩ = true from rfl]
          at hc
        exact Bool.noConfusion hc
  refine ⟨hw, ?_⟩
  exact (mergeRealized_self_merge w3base w3base hw rfl).1
    ⟨"2024-06-30", 5/2, some (5/2), none⟩ (by simp [w3base]) rfl

/-!
Claim theorems about the fetch client.
-/

/-- C7 (confirmed): with the default budget of 5 attempts, a run of `k`
rate-limited replies followed by a success returns the parsed body after
backoff sleeps of 1, 2, 4, ... seconds (doubling each attempt; for two
429s the total is 1s + 2s), and five straight 429s make the call fail
with the rate-limit status after sleeps 1, 2, 4, 8 instead of
returning. -/
theorem riksbankenRequest_rate_limited_backoff (k : Nat) (hk : k < 5) (body : RJson)
    (rest : List HttpResp) :
    riksbankenRequestDefault
        (List.replicate k resp429 ++ { status := 200, body := some body } :: rest) =
      .success body ((List.range k).map fun n => 2 ^ n) ∧
    riksbankenRequestDefault (List.replicate 5 resp429) = .httpStatusError 429 [1, 2, 4, 8] := by
  constructor
  · interval_cases k <;> rfl
  · rfl

/-- Witness for C7: two 429s then a 200 return the body after sleeping
1s and 2s. -/
theorem riksbankenRequest_rate_limited_backoff_witness :
    2 < 5 ∧
    riksbankenRequestDefault [resp429, resp429, { status := 200, body := some (RJson.num 7) }] =
      .success (RJson.num 7) [1, 2] := by
  refine ⟨by norm_num, ?_⟩
  exact (riksbankenRequest_rate_limited_backoff 2 (by norm_num) (RJson.num 7) []).1

/-- C8 (confirmed): a 404 reply makes the fetch client return the empty
object with no exception and no sleeps, whatever body the reply carries
and whatever replies would follow; a successful reply with an empty body
likewise returns the empty object without a parse attempt. -/
theorem riksbankenRequest_not_found_and_empty_body (b : Option RJson) (rest : List HttpResp) :
    riksbankenRequestDefault ({ status := 404, body := b } :: rest) = .success rjsonEmpty [] ∧
    riksbankenRequestDefault ({ status := 200, body := none } :: rest) = .success rjsonEmpty [] :=
  ⟨rfl, rfl⟩

/-!
Claim theorems about the orchestrator.
-/

/-- C5 (counterexample): calling the orchestrator with `policyRound`
omitted but `includeRealized` true performs the policy-round catalogue
fetch, a second vintage fetch and the merge — enrichment is not skipped,
because the latest round id (a string) never compares equal to the
omitted (`None`) round. -/
theorem fetchSeries_omitted_round_counterexample :
    fetchSeries cxFetcher cxRounds "S" { policy_round := none, include_realized := true } =
      .ok ({ external_id := "S", vintages := [vEmpty] },
        [.fetchVintages "S" none, .listRounds, .fetchVintages "S" (some "2024:2"),
         .mergeApplied]) ∧
    FetchEv.mergeApplied ∈ ([.fetchVintages "S" none, .listRounds,
      .fetchVintages "S" (some "2024:2"), .mergeApplied] : List FetchEv) :=
  ⟨rfl, by simp⟩

/-- C5 (amended): with `policyRound` omitted the base fetch indeed runs
with no round filter (returning all vintages), and enrichment is skipped
exactly when `includeRealized` is false; when `includeRealized` is true
and the catalogue is non-empty, the catalogue fetch and a second vintage
fetch (for the maximal round) are always performed, since the latest
round id never equals the omitted round. -/
theorem fetchSeries_omitted_round (fetcher : String → Option String → MonetaryPolicyDataResponse)
    (rounds : List PolicyRound) (sid : String) :
    (fetchSeries fetcher rounds sid { policy_round := none, include_realized := false } =
      .ok (fetcher sid none, [.fetchVintages sid none])) ∧
    (∀ r rest resp evs, rounds = r :: rest →
      fetchSeries fetcher rounds sid { policy_round := none, include_realized := true } =
        .ok (resp, evs) →
      FetchEv.listRounds ∈ evs ∧
        FetchEv.fetchVintages sid (some (maxRoundAux r rest).id) ∈ evs) := by
  constructor
  · rfl
  · rintro r rest resp evs rfl hout
    simp only [fetchSeries, if_true] at hout
    rw [if_pos (Option.some_ne_none (maxRoundAux r rest).id)] at hout
    split at hout
    · split at hout
      · injection hout with h1
        injection h1 with h2 h3
        subst h3
        constructor <;> simp
      · simp at hout
    · injection hout with h1
      injection h1 with h2 h3
      subst h3
      constructor <;> simp

/-- Witness for the amended C5: with the empty-vintage fetcher and the
one-round catalogue, `includeRealized = false` returns the base response
verbatim after a single fetch, and with `includeRealized = true` the
catalogue fetch appears among the performed effects. -/
theorem fetchSeries_omitted_round_witness :
    (fetchSeries cxFetcher cxRounds "W" { policy_round := none, include_realized := false } =
      .ok (cxFetcher "W" none, [.fetchVintages "W" none])) ∧
    FetchEv.listRounds ∈ ([.fetchVintages "W" none, .listRounds,
      .fetchVintages "W" (some "2024:2"), .mergeApplied] : List FetchEv) := by
  have h := fetchSeries_omitted_round cxFetcher cxRounds "W"
  refine ⟨h.1, ?_⟩
  exact (h.2 ⟨"2024:2", 2024, 2⟩ [] { external_id := "W", vintages := [vEmpty] }
    [.fetchVintages "W" none, .listRounds, .fetchVintages "W" (some "2024:2"), .mergeApplied]
    rfl rfl).1

/-- C9 (confirmed): when enrichment actually runs — a round is requested,
the catalogue's maximal round differs from it, and both fetched responses
carry vintages — the orchestrator returns the base response object with
only index 0 of its vintage list replaced by the merged vintage: the
remaining vintages and the `external_id` are the base's own, unchanged
(the code mutates `base.vintages[0]` in place and returns the same
`base` object, embedded here as the in-place index-0 update). -/
theorem fetchSeries_enrichment_replaces_first_vintage
    (fetcher : String → Option String → MonetaryPolicyDataResponse)
    (rounds : List PolicyRound) (sid : String) (pr : Option String)
    (r : PolicyRound) (rest : List PolicyRound)
    (b0 : ForecastVintage) (btl : List ForecastVintage)
    (l0 : ForecastVintage) (ltl : List ForecastVintage)
    (merged : ForecastVintage)
    (hr : rounds = r :: rest)
    (hne : some (maxRoundAux r rest).id ≠ pr)
    (hb : (fetcher sid pr).vintages = b0 :: btl)
    (hl : (fetcher sid (some (maxRoundAux r rest).id)).vintages = l0 :: ltl)
    (hm : mergeRealized b0 l0 = .ok merged) :
    fetchSeries fetcher rounds sid { policy_round := pr, include_realized := true } =
      .ok ({ external_id := (fetcher sid pr).external_id, vintages := merged :: btl },
        [.fetchVintages sid pr, .listRounds,
         .fetchVintages sid (some (maxRoundAux r rest).id), .mergeApplied]) := by
  subst hr
  simp only [fetchSeries, hb, hl, hm, if_true]
  rw [if_pos hne]
  simp

/-- Witness for C9: a concrete enrichment run replacing the only vintage
of the base response while keeping its `external_id`. -/
theorem fetchSeries_enrichment_replaces_first_vintage_witness :
    fetchSeries cxFetcher cxRounds "W9" { policy_round := some "2024:1", include_realized := true } =
      .ok ({ external_id := "W9", vintages := [vEmpty] },
        [.fetchVintages "W9" (some "2024:1"), .listRounds,
         .fetchVintages "W9" (some "2024:2"), .mergeApplied]) := by
  have h := fetchSeries_enrichment_replaces_first_vintage cxFetcher cxRounds "W9"
    (some "2024:1") ⟨"2024:2", 2024, 2⟩ [] vEmpty [] vEmpty [] vEmpty rfl
    (by intro hc; injection hc with hc'; exact absurd hc' (by decide)) rfl rfl rfl
  exact h

/-!
Claim theorems about request validation.
-/

theorem stringDataEq {s t : String} (h : s.data = t.data) : s = t := by
  cases s
  cases t
  exact congrArg String.mk h

theorem rmatch_eps_iff (l : List Char) : rmatch .eps l = true ↔ l = [] := by
  cases l <;> simp [rmatch]

theorem rmatch_chr_iff (c : Char) (l : List Char) :
    rmatch (.chr c) l = true ↔ l = [c] := by
  match l with
  | [] => simp [rmatch]
  | [x] =>
    rw [rmatch]
    constructor
    · intro h
      rw [List.cons.injEq]
      exact ⟨eq_of_beq h, rfl⟩
    · intro h
      rw [List.cons.injEq] at h
      rw [h.1]
      exact beq_self_eq_true c
  | x :: y :: t => simp [rmatch]

theorem rmatch_cls_iff (p : Char → Bool) (l : List Char) :
    rmatch (.cls p) l = true ↔ ∃ c, l = [c] ∧ p c = true := by
  match l with
  | [] => simp [rmatch]
  | [x] =>
    rw [rmatch]
    constructor
    · intro h
      exact ⟨x, rfl, h⟩
    · rintro ⟨c, hc, h⟩
      rw [List.cons.injEq] at hc
      rw [hc.1]
      exact h
  | x :: y :: t => simp [rmatch]

theorem rmatch_seq_iff (r1 r2 : Regex) (l : List Char) :
    rmatch (.seq r1 r2) l = true ↔
      ∃ l1 l2, l = l1 ++ l2 ∧ rmatch r1 l1 = true ∧ rmatch r2 l2 = true := by
  rw [rmatch]
  rw [List.any_eq_true]
  constructor
  · rintro ⟨i, hi, hsplit⟩
    rw [Bool.and_eq_true] at hsplit
    exact ⟨l.take i, l.drop i, (List.take_append_drop i l).symm, hsplit.1, hsplit.2⟩
  · rintro ⟨l1, l2, rfl, h1, h2⟩
    refine ⟨l1.length, ?_, ?_⟩
    · rw [List.mem_range, List.length_append]
      exact Nat.lt_succ_of_le (Nat.le_add_right _ _)
    · rw [Bool.and_eq_true, List.take_left, List.drop_left]
      exact ⟨h1, h2⟩

theorem rmatch_lit_iff (cs : List Char) : ∀ l, rmatch (litRegex cs) l = true ↔ l = cs := by
  induction cs with
  | nil => intro l; rw [litRegex]; exact rmatch_eps_iff l
  | cons c cs ih =>
    intro l
    rw [litRegex, rmatch_seq_iff]
    constructor
    · rintro ⟨l1, l2, rfl, h1, h2⟩
      rw [rmatch_chr_iff] at h1
      rw [ih] at h2
      rw [h1, h2]
      rfl
    · rintro rfl
      exact ⟨[c], cs, rfl, (rmatch_chr_iff c [c]).mpr rfl, (ih cs).mpr rfl⟩

theorem rmatch_policyRoundDigits_iff (l : List Char) :
    rmatch policyRoundDigits l = true ↔
      ∃ c1 c2 c3 c4 c5 : Char, l = [c1, c2, c3, c4, ':', c5] ∧
        c1.isDigit = true ∧ c2.isDigit = true ∧ c3.isDigit = true ∧
        c4.isDigit = true ∧ c5.isDigit = true := by
  rw [policyRoundDigits]
  simp only [rmatch_seq_iff, rmatch_cls_iff, rmatch_chr_iff]
  constructor
  · rintro ⟨l1, l2, rfl, ⟨c1, rfl, h1⟩, l3, l4, rfl, ⟨c2, rfl, h2⟩, l5, l6, rfl, ⟨c3, rfl, h3⟩,
      l7, l8, rfl, ⟨c4, rfl, h4⟩, l9, l10, rfl, rfl, ⟨c5, rfl, h5⟩⟩
    exact ⟨c1, c2, c3, c4, c5, rfl, h1, h2, h3, h4, h5⟩
  · rintro ⟨c1, c2, c3, c4, c5, rfl, h1, h2, h3, h4, h5⟩
    exact ⟨[c1], _, rfl, ⟨c1, rfl, h1⟩, [c2], _, rfl, ⟨c2, rfl, h2⟩, [c3], _, rfl, ⟨c3, rfl, h3⟩,
      [c4], _, rfl, ⟨c4, rfl, h4⟩, [':'], _, rfl, rfl, ⟨c5, rfl, h5⟩⟩

theorem mkForecastRequest_isOk (pr : Option String) (ir : Bool) :
    exceptIsOk (mkForecastRequest pr ir) = policyRoundOk pr := by
  cases hpo : policyRoundOk pr with
  | false =>
    rw [mkForecastRequest, if_neg]
    · rfl
    · rw [hpo]
      exact Bool.false_ne_true
  | true =>
    rw [mkForecastRequest, if_pos hpo]
    rfl

/-- C10 (confirmed): constructing a `ForecastRequest` passes model
validation exactly when `policy_round` is `None`, the literal string
`latest`, or a string of exactly four digits, a colon and one digit
(`\d` modelled as a decimal digit); in particular `2024:10`, whose
iteration has two digits, is rejected at the request boundary. -/
theorem forecastRequest_policy_round_validation :
    (∀ (pr : Option String) (ir : Bool),
      exceptIsOk (mkForecastRequest pr ir) = true ↔
        (pr = none ∨ pr = some "latest" ∨
          ∃ c1 c2 c3 c4 c5 : Char, pr = some (String.mk [c1, c2, c3, c4, ':', c5]) ∧
            c1.isDigit = true ∧ c2.isDigit = true ∧ c3.isDigit = true ∧
            c4.isDigit = true ∧ c5.isDigit = true)) ∧
    (∀ ir : Bool, exceptIsOk (mkForecastRequest (some "2024:10") ir) = false) := by
  constructor
  · intro pr ir
    rw [mkForecastRequest_isOk]
    cases pr with
    | none => simp [policyRoundOk]
    | some s =>
      have halt : policyRoundOk (some s) =
          (rmatch policyRoundDigits s.data || rmatch (litRegex "latest".data) s.data) := rfl
      rw [halt, Bool.or_eq_true, rmatch_policyRoundDigits_iff, rmatch_lit_iff]
      constructor
      · rintro (⟨c1, c2, c3, c4, c5, hd, h1, h2, h3, h4, h5⟩ | hlat)
        · refine Or.inr (Or.inr ⟨c1, c2, c3, c4, c5, ?_, h1, h2, h3, h4, h5⟩)
          exact congrArg some (@stringDataEq s (String.mk [c1, c2, c3, c4, ':', c5]) hd)
        · exact Or.inr (Or.inl (congrArg some (stringDataEq hlat)))
      · rintro (hn | hl | ⟨c1, c2, c3, c4, c5, hs, h1, h2, h3, h4, h5⟩)
        · exact absurd hn (by simp)
        · right
          injection hl with hl'
          rw [hl']
        · left
          injection hs with hs'
          exact ⟨c1, c2, c3, c4, c5, by rw [hs'], h1, h2, h3, h4, h5⟩
  · intro ir
    rfl

/-- Witness for the amended C4: Scenario 1's latest vintage has parseable
dates on all its realized rows, so its merge against the base succeeds. -/
theorem mergeRealized_success_characterization_witness :
    exceptIsOk (mergeRealized w3base w3latest) = true := by
  refine (mergeRealized_success_characterization w3base w3latest).mpr ?_
  intro o ho _
  have ho' : o = ⟨"2024-06-30", 12/5, none, some (12/5)⟩ := by simpa [w3latest] using ho
  rw [ho']
  rfl

/-- Witness for C8: a concrete 404 reply and a concrete empty-body 200
reply both yield the empty object. -/
theorem riksbankenRequest_not_found_and_empty_body_witness :
    riksbankenRequestDefault [{ status := 404, body := some (RJson.num 3) }] =
      .success rjsonEmpty [] ∧
    riksbankenRequestDefault [{ status := 200, body := none }] = .success rjsonEmpty [] :=
  riksbankenRequest_not_found_and_empty_body (some (RJson.num 3)) []

/-- Witness for C10: the round id `2024:3` is accepted and `2024:10` is
rejected. -/
theorem forecastRequest_policy_round_validation_witness :
    exceptIsOk (mkForecastRequest (some "2024:3") true) = true ∧
    exceptIsOk (mkForecastRequest (some "2024:10") true) = false := by
  constructor
  · refine (forecastRequest_policy_round_validation.1 (some "2024:3") true).mpr ?_
    refine Or.inr (Or.inr ⟨'2', '0', '2', '4', '3', ?_, rfl, rfl, rfl, rfl, rfl⟩)
    rfl
  · exact forecastRequest_policy_round_validation.2 true
